import Mathlib

/-!
Verification of the dual-model orchestration / self-healing core of the
`vibecoding_helper` repository, as a shallow embedding in Lean 4.

Conventions of the embedding:
* Python dataclasses become Lean structures with the same field names.
* Effectful calls (LLM provider calls, subprocess invocations, file I/O)
  are modelled by explicit oracle functions / outcome values supplied as
  parameters: each call site consumes the value the environment would
  have returned there, and every provider/tool call is recorded in an
  explicit trace so that "was invoked" claims are statable.
* Python truthiness (`if libraries:`, `if last_error:`, `if issue.line:`)
  is translated explicitly (non-empty list / non-empty string / non-zero
  int).
* Character classes of the CPython `re` module (`\w`, `\s`) and
  `str.strip` are modelled over their ASCII behaviour, which is the
  behaviour exercised by the source.
-/

namespace Vibe

/-! ## Python string helpers (ASCII fragment of `str` methods) -/

/-- Whitespace class of Python `str.strip` and of the regex class `\s`
(ASCII fragment). -/
def pyIsSpace (c : Char) : Bool :=
  c = ' ' || c = '\t' || c = '\n' || c = '\r' || c = '\x0b' || c = '\x0c'

/-- Word-character class of the regex class `\w` (ASCII fragment). -/
def pyIsWord (c : Char) : Bool :=
  c.isAlphanum || c = '_'

/-- Python `str.strip()` on a character list: drop whitespace from both
ends. -/
def pyStripL (s : List Char) : List Char :=
  ((s.dropWhile pyIsSpace).reverse.dropWhile pyIsSpace).reverse

/-- Python `str.strip()` on strings. -/
def pyStrip (s : String) : String :=
  ⟨pyStripL s.data⟩

/-- Python `int(s)` on a string, returning `none` where CPython raises
`ValueError` (ASCII digits, optional sign, surrounding whitespace). -/
def pyInt? (s : String) : Option Int :=
  let t := pyStripL s.data
  let (neg, ds) :=
    match t with
    | c :: tl => if c = '-' then (true, tl) else if c = '+' then (false, tl) else (false, t)
    | [] => (false, t)
  if ds = [] then none
  else if ds.all Char.isDigit then
    let n : Nat := ds.foldl (fun acc c => acc * 10 + (c.toNat - 48)) 0
    some (if neg then -(n : Int) else (n : Int))
  else none

/-- Break a character list at the first `:`; `none` when there is no
colon. Helper for Python `str.split(":", maxsplit)`. -/
def breakAtColon : List Char → Option (List Char × List Char)
  | [] => none
  | c :: tl =>
    if c = ':' then some ([], tl)
    else (breakAtColon tl).map (fun p => (c :: p.1, p.2))

/-- Python `s.split(":", maxsplit)` on character lists. -/
def splitColonMax : Nat → List Char → List (List Char)
  | 0, s => [s]
  | n + 1, s =>
    match breakAtColon s with
    | none => [s]
    | some (a, b) => a :: splitColonMax n b

/-- Python `s.split(":", maxsplit)` on strings. -/
def pySplitColon (maxsplit : Nat) (s : String) : List String :=
  (splitColonMax maxsplit s.data).map fun l => ⟨l⟩

/-- Does `needle` occur at the head of `hay`? -/
def listStarts : List Char → List Char → Bool
  | [], _ => true
  | _ :: _, [] => false
  | a :: as, b :: bs => a = b && listStarts as bs

/-- Python `needle in hay` substring test on character lists. -/
def containsSeq (needle : List Char) : List Char → Bool
  | [] => listStarts needle []
  | c :: tl => listStarts needle (c :: tl) || containsSeq needle tl

/-- Python `needle in hay` substring test on strings. -/
def pyContains (hay needle : String) : Bool :=
  containsSeq needle.data hay.data

/-- Python `s.split("\\n")` on character lists (structural, so that it
reduces in the kernel). -/
def splitNlL : List Char → List (List Char)
  | [] => [[]]
  | c :: tl =>
    let r := splitNlL tl
    if c = '\n' then [] :: r
    else
      match r with
      | [] => [[c]]
      | h :: t => (c :: h) :: t

/-- Python `s.split("\\n")` on strings. -/
def pySplitNl (s : String) : List String :=
  (splitNlL s.data).map fun l => ⟨l⟩

/-- Python `s.split(" ", 1)`. -/
def pySplitSpace1 (s : String) : List String :=
  match s.data.splitOnP (· = ' ') with
  | [] => [s]
  | [_] => [s]
  | a :: rest => [⟨a⟩, ⟨(List.intercalate [' '] rest)⟩]

/-! ## Verifier data model (`src/vibe/verifiers/base.py`) -/

/-- `VerifyLevel` enum (`syntax`, `types`, `lint`, `test`, `all`). -/
inductive VerifyLevel where
  | syn
  | types
  | lint
  | test
  | all
deriving DecidableEq, Repr

/-- `VerifyIssue` dataclass. -/
structure VerifyIssue where
  level : String
  message : String
  file : Option String := none
  line : Option Int := none
  column : Option Int := none
  rule : Option String := none
deriving DecidableEq, Repr

/-- `VerifyResult` dataclass. -/
structure VerifyResult where
  success : Bool
  check_type : VerifyLevel
  issues : List VerifyIssue := []
  output : String := ""
  fix_applied : Bool := false
deriving DecidableEq, Repr

/-- `VerifyResult.error_count` property. -/
def VerifyResult.error_count (r : VerifyResult) : Nat :=
  (r.issues.filter (fun i => i.level = "error")).length

/-- `VerifyResult.warning_count` property. -/
def VerifyResult.warning_count (r : VerifyResult) : Nat :=
  (r.issues.filter (fun i => i.level = "warning")).length

/-- `LanguageVerifier.is_all_passed`. -/
def is_all_passed (results : List VerifyResult) : Bool :=
  results.all (fun r => r.success)

/-! ## Python verifier external-tool checks (`src/vibe/verifiers/python.py`)

A `subprocess.run` invocation of an external tool is modelled by the
outcome the environment produced for it: normal completion with an exit
code and captured output, `FileNotFoundError` (tool not installed),
`subprocess.TimeoutExpired`, or any other exception carrying its
`str(e)` text. -/

/-- Outcome of one external tool invocation, as observed at the
`subprocess.run` call site. -/
inductive ToolOutcome where
  | completed (returncode : Int) (stdout stderr : String)
  | toolMissing
  | timedOut
  | failed (msg : String)
deriving DecidableEq, Repr

/-- Parsing of one mypy output line inside `PythonVerifier.check_types`
(the body of the `for line in ...` loop). Returns the issue appended for
that line, if any. -/
def mypyParseLine (line : String) : Option VerifyIssue :=
  if line = "" || line.startsWith "Success" then none
  else
    let parts := pySplitColon 3 line
    if parts.length ≥ 4 then
      match pyInt? (parts.getD 1 "") with
      | none => none
      | some line_num =>
        let level := if pyContains (parts.getD 2 "") "error" then "error" else "warning"
        let message := pyStrip (parts.getD 3 "")
        some { level := level, message := message, file := some (parts.getD 0 ""),
               line := some line_num }
    else none

/-- `PythonVerifier.check_types`, as a function of the mypy invocation
outcome. -/
def check_types (outcome : ToolOutcome) : VerifyResult :=
  match outcome with
  | .completed rc stdout stderr =>
    let output := stdout ++ stderr
    let issues := (pySplitNl (pyStrip output)).filterMap mypyParseLine
    { success := rc = 0, check_type := .types, issues := issues, output := output }
  | .toolMissing =>
    { success := true, check_type := .types,
      output := "mypy가 설치되지 않았습니다. 타입 검사를 건너뜁니다." }
  | .timedOut =>
    { success := false, check_type := .types,
      issues := [{ level := "error", message := "타입 검사 타임아웃" }] }
  | .failed msg =>
    { success := false, check_type := .types,
      issues := [{ level := "error", message := msg }] }

/-- Parsing of one ruff output line inside `PythonVerifier.check_lint`. -/
def ruffParseLine (line : String) : Option VerifyIssue :=
  if line = "" then none
  else
    let parts := pySplitColon 3 line
    if parts.length ≥ 4 then
      match pyInt? (parts.getD 1 ""), pyInt? (parts.getD 2 "") with
      | some line_num, some col_num =>
        let rest := pyStrip (parts.getD 3 "")
        let rule_parts := pySplitSpace1 rest
        let rule := rule_parts.getD 0 ""
        let message := if rule_parts.length > 1 then rule_parts.getD 1 "" else rest
        some { level := "warning", message := message, file := some (parts.getD 0 ""),
               line := some line_num, column := some col_num, rule := some rule }
      | _, _ => none
    else none

/-- `PythonVerifier.check_lint`, as a function of the `fix` flag and of
the ruff invocation outcome. Note `fix_applied := fix && rc = 0`
(`fix_applied=fix and success` in the source). -/
def check_lint (fix : Bool) (outcome : ToolOutcome) : VerifyResult :=
  match outcome with
  | .completed rc stdout stderr =>
    let output := stdout ++ stderr
    let issues := (pySplitNl (pyStrip output)).filterMap ruffParseLine
    { success := rc = 0, check_type := .lint, issues := issues, output := output,
      fix_applied := fix && rc = 0 }
  | .toolMissing =>
    { success := true, check_type := .lint,
      output := "ruff가 설치되지 않았습니다. 린트 검사를 건너뜁니다." }
  | .timedOut =>
    { success := false, check_type := .lint,
      issues := [{ level := "error", message := "린트 검사 타임아웃" }] }
  | .failed msg =>
    { success := false, check_type := .lint,
      issues := [{ level := "error", message := msg }] }

/-- `PythonVerifier.run_tests`, as a function of the source file name,
of the test-file discovery result (`_find_test_file`), and of the pytest
invocation outcome. -/
def run_tests (fileName : String) (testFile : Option String)
    (outcome : ToolOutcome) : VerifyResult :=
  match testFile with
  | none =>
    { success := true, check_type := .test,
      output := "관련 테스트 파일을 찾을 수 없습니다: " ++ fileName }
  | some tf =>
    match outcome with
    | .completed rc stdout stderr =>
      let output := stdout ++ stderr
      let success := rc = 0
      let issues :=
        if success then []
        else [{ level := "error", message := "테스트 실패", file := some tf : VerifyIssue }]
      { success := success, check_type := .test, issues := issues, output := output }
    | .toolMissing =>
      { success := true, check_type := .test,
        output := "pytest가 설치되지 않았습니다. 테스트를 건너뜁니다." }
    | .timedOut =>
      { success := false, check_type := .test,
        issues := [{ level := "error", message := "테스트 타임아웃" }] }
    | .failed msg =>
      { success := false, check_type := .test,
        issues := [{ level := "error", message := msg }] }

/-! ## Verifier pipeline (`LanguageVerifier.verify_all`, `verify_file`)

A language verifier instance applied to one fixed file is modelled by
the four check results its checks would return on that file; running
`verify_all` additionally records which checks were invoked, in order. -/

/-- Which of the four checks was invoked. -/
inductive CheckKind where
  | synCheck
  | typesCheck
  | lintCheck
  | testCheck
deriving DecidableEq, Repr

/-- A language verifier applied to one fixed file: the outcome each of
its four checks would produce on that file (`check_lint` additionally
depends on the `fix` flag). -/
structure VerifierModel where
  language : String
  checkSynRes : VerifyResult
  checkTypesRes : VerifyResult
  checkLintRes : Bool → VerifyResult
  runTestsRes : VerifyResult

/-- `LanguageVerifier.verify_all`: ordered results together with the
trace of checks invoked. -/
def verify_all (v : VerifierModel) (fix skip_tests : Bool) :
    List VerifyResult × List CheckKind :=
  let syntax_result := v.checkSynRes
  if !syntax_result.success then
    ([syntax_result], [CheckKind.synCheck])
  else
    let type_result := v.checkTypesRes
    let lint_result := v.checkLintRes fix
    if skip_tests then
      ([syntax_result, type_result, lint_result],
       [CheckKind.synCheck, CheckKind.typesCheck, CheckKind.lintCheck])
    else
      ([syntax_result, type_result, lint_result, v.runTestsRes],
       [CheckKind.synCheck, CheckKind.typesCheck, CheckKind.lintCheck, CheckKind.testCheck])

/-- `verify_file` (`src/vibe/verifiers/factory.py`): dispatch on path
existence and requested level; the second component is the trace of
verifier checks invoked. -/
def verify_file (pathExists : Bool) (pathStr : String) (v : VerifierModel)
    (level : VerifyLevel) (fix skip_tests : Bool) :
    List VerifyResult × List CheckKind :=
  if !pathExists then
    ([{ success := false, check_type := .syn,
        output := "파일을 찾을 수 없습니다: " ++ pathStr }], [])
  else
    match level with
    | .all => verify_all v fix skip_tests
    | .syn => ([v.checkSynRes], [CheckKind.synCheck])
    | .types => ([v.checkTypesRes], [CheckKind.typesCheck])
    | .lint => ([v.checkLintRes fix], [CheckKind.lintCheck])
    | .test => ([v.runTestsRes], [CheckKind.testCheck])

/-! ## Provider and orchestrator data model
(`src/vibe/providers/base.py`, `src/vibe/core/exceptions.py`,
`src/vibe/providers/orchestrator.py`) -/

/-- `Message` pydantic model (`src/vibe/core/context.py`). -/
structure Message where
  role : String
  content : String
deriving DecidableEq, Repr

/-- `Usage` pydantic model. -/
structure Usage where
  input_tokens : Int
  output_tokens : Int
deriving DecidableEq, Repr

/-- `Response` pydantic model. -/
structure Response where
  content : String
  model : String
  usage : Usage
  stop_reason : Option String := none
deriving DecidableEq, Repr

/-- `ProviderError` exception (`VibeError` carries `message` and an
optional `code`; `str(e)` is the message). -/
structure ProviderError where
  message : String
  code : Option String := none
deriving DecidableEq, Repr

/-- Python `str(e)` on a `ProviderError` (`Exception.__str__` of the
single `message` argument passed to `super().__init__`). -/
def ProviderError.str (e : ProviderError) : String := e.message

/-- An `AIProvider` bound in the orchestrator, modelled by its name and
by the response its `generate` coroutine produces for given arguments
(messages, system, max_tokens); a `ProviderError` raise is an `error`
value. -/
structure AIProviderModel where
  name : String
  generate : List Message → Option String → Nat → Except ProviderError Response

/-- Which provider role a generate call went to. -/
inductive Role where
  | mainAgent
  | knowledgeEngine
deriving DecidableEq, Repr

/-- One recorded provider `generate` invocation. -/
structure ProviderCall where
  role : Role
  messages : List Message
  system : Option String
  max_tokens : Nat
deriving DecidableEq, Repr

/-- `OrchestratorResult` dataclass. -/
structure OrchestratorResult where
  content : String
  main_response : Option Response := none
  knowledge_response : Option Response := none
  model_used : String := ""
  collaboration_log : Option (List String) := none
deriving DecidableEq, Repr

/-- `DualModelOrchestrator` instance state: the two bound providers and
the accumulated collaboration log. -/
structure DualModelOrchestrator where
  main : AIProviderModel
  knowledge : AIProviderModel
  log : List String := []

/-- Outcome of one orchestrator phase method: the returned result (or
the propagated `ProviderError`), the instance log after the call, and
the trace of provider `generate` invocations made during the call. -/
structure PhaseOutcome where
  result : Except ProviderError OrchestratorResult
  log : List String
  calls : List ProviderCall

/-- Number of main-provider `generate` invocations in a call trace. -/
def mainCallCount (calls : List ProviderCall) : Nat :=
  (calls.filter (fun c => c.role = Role.mainAgent)).length

/-- Number of knowledge-provider `generate` invocations in a call
trace. -/
def knowledgeCallCount (calls : List ProviderCall) : Nat :=
  (calls.filter (fun c => c.role = Role.knowledgeEngine)).length

/-! ## Orchestrator phase protocols -/

/-- Analysis prompt of `execute_phase1_plan` step 1. -/
def phase1AnalysisPrompt (external_context : String) : String :=
  "다음 컨텍스트를 분석하고 PRD 작성에 필요한 핵심 정보를 추출하세요:\n\n"
    ++ external_context
    ++ "\n\n핵심 요구사항, 기술적 제약, 사용자 니즈를 정리해주세요."

/-- `DualModelOrchestrator.execute_phase1_plan`. `external_context` is
an optional string; Python truthiness makes `None` and `""` equivalent
here. -/
def execute_phase1_plan (o : DualModelOrchestrator) (messages : List Message)
    (system : Option String) (external_context : Option String) : PhaseOutcome :=
  let log := o.log ++ ["Phase 1: Gemini가 컨텍스트를 분석합니다."]
  let ecTruthy := match external_context with
    | some s => s != ""
    | none => false
  let step1 :
      Except ProviderError (String × List String × List ProviderCall) :=
    if ecTruthy then
      let ec := external_context.getD ""
      let analysis_prompt := phase1AnalysisPrompt ec
      let gemini_messages := [Message.mk "user" analysis_prompt]
      let call := ProviderCall.mk Role.knowledgeEngine gemini_messages system 2048
      match o.knowledge.generate gemini_messages system 2048 with
      | .error e => .error e
      | .ok gemini_response =>
        let context_summary := gemini_response.content
        .ok (context_summary,
             log ++ ["Gemini 분석 완료: " ++ toString context_summary.length ++ " 문자"],
             [call])
    else
      .ok ("", log, [])
  match step1 with
  | .error e =>
    { result := .error e, log := log,
      calls := [ProviderCall.mk Role.knowledgeEngine
        [Message.mk "user" (phase1AnalysisPrompt (external_context.getD ""))] system 2048] }
  | .ok (context_summary, log1, calls1) =>
    let log2 := log1 ++ ["Phase 1: Claude가 PRD를 작성합니다."]
    let enhanced_messages :=
      if context_summary ≠ "" then
        Message.mk "user" ("[Gemini 분석 결과]\n" ++ context_summary ++ "\n\n---\n\n")
          :: messages
      else messages
    let mainCall := ProviderCall.mk Role.mainAgent enhanced_messages system 8192
    match o.main.generate enhanced_messages system 8192 with
    | .error e =>
      { result := .error e, log := log2, calls := calls1 ++ [mainCall] }
    | .ok claude_response =>
      { result := .ok
          { content := claude_response.content,
            main_response := some claude_response,
            knowledge_response := none,
            model_used := o.knowledge.name ++ "+" ++ o.main.name,
            collaboration_log := some log2 },
        log := log2,
        calls := calls1 ++ [mainCall] }

/-- Compatibility-verification prompt of `execute_phase2_design`. -/
def phase2VerifyPrompt (libraries : List String) : String :=
  "다음 라이브러리들의 호환성을 검증하세요:\n"
    ++ String.intercalate "\n" (libraries.map (fun lib => "- " ++ lib))
    ++ "\n\n각 라이브러리의:\n1. 최신 안정 버전\n2. Python 3.11+ 호환성\n3. 상호 의존성 충돌 가능성\n을 확인해주세요."

/-- `DualModelOrchestrator.execute_phase2_design`. Note the knowledge
compatibility call is not guarded by any `try`/`except`: its
`ProviderError` propagates out of the method. -/
def execute_phase2_design (o : DualModelOrchestrator) (messages : List Message)
    (system : Option String) (libraries : List String) : PhaseOutcome :=
  let log := o.log ++ ["Phase 2: Claude가 아키텍처를 설계합니다."]
  let mainCall := ProviderCall.mk Role.mainAgent messages system 8192
  match o.main.generate messages system 8192 with
  | .error e => { result := .error e, log := log, calls := [mainCall] }
  | .ok claude_response =>
    let step2 :
        Except ProviderError (String × List String × List ProviderCall) :=
      if libraries ≠ [] then
        let log2 := log ++ ["Phase 2: Gemini가 " ++ toString libraries.length
          ++ "개 라이브러리를 검증합니다."]
        let verify_prompt := phase2VerifyPrompt libraries
        let gemini_messages := [Message.mk "user" verify_prompt]
        let call := ProviderCall.mk Role.knowledgeEngine gemini_messages none 2048
        match o.knowledge.generate gemini_messages none 2048 with
        | .error e => .error e
        | .ok gemini_response => .ok (gemini_response.content, log2, [call])
      else
        .ok ("", log, [])
    match step2 with
    | .error e =>
      { result := .error e,
        log := log ++ ["Phase 2: Gemini가 " ++ toString libraries.length
          ++ "개 라이브러리를 검증합니다."],
        calls := [mainCall,
          ProviderCall.mk Role.knowledgeEngine
            [Message.mk "user" (phase2VerifyPrompt libraries)] none 2048] }
    | .ok (compatibility_notes, log2, calls2) =>
      let final_content :=
        if compatibility_notes ≠ "" then
          claude_response.content
            ++ "\n\n---\n## 라이브러리 호환성 검증 (Gemini)\n" ++ compatibility_notes
        else claude_response.content
      { result := .ok
          { content := final_content,
            main_response := some claude_response,
            knowledge_response := none,
            model_used := o.main.name ++ "+" ++ o.knowledge.name,
            collaboration_log := some log2 },
        log := log2,
        calls := mainCall :: calls2 }

/-- Synthetic retry message appended before retries in
`execute_phase3_code`. -/
def phase3RetryMessage (last_error : String) : Message :=
  Message.mk "user"
    ("이전 시도에서 다음 에러가 발생했습니다:\n" ++ last_error
      ++ "\n\n수정해서 다시 작성해주세요.")

/-- Failure-analysis prompt sent to the knowledge provider after the
retry loop of `execute_phase3_code` is exhausted (`f"{last_error}"`
renders `None` when no error was recorded). -/
def phase3AnalysisPrompt (last_error : Option String) (messages : List Message) : String :=
  "Claude가 코드 생성 중 반복적으로 실패했습니다.\n\n에러 내용:\n"
    ++ (match last_error with | some s => s | none => "None")
    ++ "\n\n요청 내용:\n"
    ++ (match messages.getLast? with | some m => m.content | none => "N/A")
    ++ "\n\n가능한 원인과 해결 방안을 분석해주세요."

/-- One iteration's message list and log of the `execute_phase3_code`
retry loop: on a retry with a truthy recorded error, the synthetic
retry message is appended and the retry log line recorded; otherwise
the original messages are used unchanged. -/
def phase3Args (messages : List Message) (max_retries attempt : Nat)
    (last_error : Option String) (log : List String) :
    List Message × List String :=
  let leTruthy := match last_error with
    | some s => s != ""
    | none => false
  if attempt > 0 && leTruthy then
    (messages ++ [phase3RetryMessage (last_error.getD "")],
     log ++ ["Phase 3: Claude 재시도 (" ++ toString (attempt + 1) ++ "/"
       ++ toString max_retries ++ ")"])
  else (messages, log)

/-- Retry loop of `execute_phase3_code` (`for attempt in
range(max_retries)`), followed by the knowledge-provider fallback.
`attempt` is the 0-based loop index; `remaining` counts the loop
iterations still to run. -/
def phase3Go (o : DualModelOrchestrator) (messages : List Message)
    (system : Option String) (max_retries : Nat) :
    Nat → Nat → Option String → List String → List ProviderCall → PhaseOutcome
  | _, 0, last_error, log, calls =>
    let log1 := log ++ ["Phase 3: Gemini가 에러를 분석합니다."]
    let analysis_prompt := phase3AnalysisPrompt last_error messages
    let gemini_messages := [Message.mk "user" analysis_prompt]
    let call := ProviderCall.mk Role.knowledgeEngine gemini_messages none 2048
    match o.knowledge.generate gemini_messages none 2048 with
    | .error e => { result := .error e, log := log1, calls := calls ++ [call] }
    | .ok gemini_response =>
      { result := .ok
          { content := "코드 생성 실패. Gemini 분석:\n\n" ++ gemini_response.content,
            knowledge_response := some gemini_response,
            model_used := o.knowledge.name,
            collaboration_log := some log1 },
        log := log1,
        calls := calls ++ [call] }
  | attempt, remaining + 1, last_error, log, calls =>
    let ml := phase3Args messages max_retries attempt last_error log
    let call := ProviderCall.mk Role.mainAgent ml.1 system 8192
    match o.main.generate ml.1 system 8192 with
    | .ok claude_response =>
      { result := .ok
          { content := claude_response.content,
            main_response := some claude_response,
            model_used := o.main.name,
            collaboration_log := some ml.2 },
        log := ml.2,
        calls := calls ++ [call] }
    | .error e =>
      phase3Go o messages system max_retries (attempt + 1) remaining
        (some e.str) (ml.2 ++ ["Phase 3: 에러 발생 - " ++ e.str]) (calls ++ [call])

/-- `DualModelOrchestrator.execute_phase3_code`. `full_codebase` is the
optional path→content snapshot (Python truthiness: `None` and the empty
dict are equivalent). -/
def execute_phase3_code (o : DualModelOrchestrator) (messages : List Message)
    (system : Option String) (full_codebase : Option (List (String × String)))
    (max_retries : Nat) : PhaseOutcome :=
  let log := o.log ++ ["Phase 3: Claude가 코드를 생성합니다."]
  let fcTruthy := match full_codebase with
    | some l => l != []
    | none => false
  let log1 :=
    if fcTruthy then
      log ++ ["Phase 3: Gemini가 " ++ toString (full_codebase.getD []).length
        ++ "개 파일을 분석합니다."]
    else log
  phase3Go o messages system max_retries 0 max_retries none log1 []

/-! ## Markdown fence stripping (`SelfHealingWorkflow._clean_code_output`)

The source runs `re.search(r1, content, re.DOTALL)` with the pattern
(written here with B for a backtick character) `BBB(?:\\w+)?\\s*\\n(.*?)BBB`
and returns `match.group(1).strip()` when it matches, else
`content.strip()`. The embedding implements exactly this search:
`re.search` tries start positions left to right; a match at a position
consumes the three backticks, then a maximal run of word characters
(`(?:\\w+)?` greedy; since word and space classes are disjoint, shorter
runs can never rescue a failed match), then `\\s*\\n` which - by greedy
matching with backtracking - consumes the following whitespace run up to
and including its last newline (failing when that run has no newline),
and then the lazy group `(.*?)` extends to the first following
occurrence of three backticks. -/

/-- The backtick character. -/
def btChar : Char := Char.ofNat 96

/-- Do three consecutive backticks occur at the head of the list? -/
def isTripleAt : List Char → Bool
  | a :: b :: c :: _ => a = btChar && b = btChar && c = btChar
  | _ => false

/-- Split at the first occurrence of three consecutive backticks:
returns the characters before it and the characters after it. `none`
when no such occurrence exists. -/
def findFence : List Char → Option (List Char × List Char)
  | [] => none
  | a :: tl =>
    if isTripleAt (a :: tl) then some ([], tl.drop 2)
    else (findFence tl).map (fun p => (a :: p.1, p.2))

/-- Does the text contain a triple-backtick fence marker? -/
def hasTriple (s : List Char) : Bool :=
  (findFence s).isSome

/-- Continuation of a fence-pattern match after the three backticks and
the maximal word-character run: `\\s*\\n` must consume the following
whitespace run up to and including its last newline, then the lazy
group extends to the next fence marker. -/
def matchAfterFence (r1 : List Char) : Option (List Char) :=
  if (r1.takeWhile pyIsSpace).contains '\n' then
    (findFence (r1.drop ((r1.takeWhile pyIsSpace).length
      - ((r1.takeWhile pyIsSpace).reverse.takeWhile (fun x => x != '\n')).length))).map
      Prod.fst
  else none

/-- Attempt to match the fence pattern at this exact start position,
returning the lazy group (the code between the fences). -/
def matchFenceAt (s : List Char) : Option (List Char) :=
  match s with
  | a :: b :: c :: rest =>
    if a = btChar && b = btChar && c = btChar then
      matchAfterFence (rest.dropWhile pyIsWord)
    else none
  | _ => none

/-- Leftmost-match search of the fence pattern (`re.search`): try each
start position from the left. -/
def searchFence : List Char → Option (List Char)
  | [] => none
  | c :: tl =>
    match matchFenceAt (c :: tl) with
    | some g => some g
    | none => searchFence tl

/-- Character-list core of `_clean_code_output`: the stripped first
fenced block when the pattern matches, else the stripped whole text. -/
def cleanL (content : List Char) : List Char :=
  match searchFence content with
  | some g => pyStripL g
  | none => pyStripL content

/-- `SelfHealingWorkflow._clean_code_output`. -/
def cleanCodeOutput (content : String) : String :=
  ⟨cleanL content.data⟩

/-- A markdown code fence around `inner`, with language tag `lang`
(empty for a bare fence): the shape the healing workflow's fix prompt
itself uses (three backticks, the tag, a newline, the code, a newline,
three backticks). -/
def fenceWrap (lang : String) (inner : String) : String :=
  ⟨btChar :: btChar :: btChar
    :: (lang.data ++ '\n' :: (inner.data ++ '\n' :: [btChar, btChar, btChar]))⟩

/-! ## Self-healing workflow (`src/vibe/core/workflow.py`)

One `heal()` run interacts with its environment at two points per
attempt: the orchestrator regeneration (`_request_fix`, which returns
the phase-3 result content or `None` on any exception) and the syntax
re-verification of the rewritten file (`verify_file(path,
level=SYNTAX)`). The environment is modelled by two oracles indexed by
the attempt number (and, for fidelity, by the data the code passes at
that point): `genContent n prompt` is the orchestrator content returned
on attempt `n` for the fix prompt `prompt` (`none` models the
swallowed exception), and `recheck n written` is the verify-result list
the re-verification produces on attempt `n` after `written` was saved. -/

/-- `HealingResult` dataclass. -/
structure HealingResult where
  success : Bool
  attempts : Nat
  original_errors : List String := []
  remaining_errors : List String := []
  fixed_code : Option String := none
deriving DecidableEq, Repr

/-- Environment of one `heal()` run (see section comment). -/
structure HealEnv where
  initialContent : String
  genContent : Nat → String → Option String
  recheck : Nat → String → List VerifyResult

/-- `SelfHealingWorkflow._collect_errors`: `"Line {n}: {message}"` when
the issue has a truthy line number, else the bare message. -/
def collect_errors (verify_results : List VerifyResult) : List String :=
  verify_results.flatMap fun r =>
    r.issues.map fun issue =>
      match issue.line with
      | some n => if n ≠ 0 then "Line " ++ toString n ++ ": " ++ issue.message
                  else issue.message
      | none => issue.message

/-- `SelfHealingWorkflow._detect_language`: fixed extension table with a
generic fallback. -/
def detect_language (suffixLower : String) : String :=
  if suffixLower = ".py" then "Python"
  else if suffixLower = ".pyi" then "Python"
  else if suffixLower = ".ts" then "TypeScript"
  else if suffixLower = ".tsx" then "TypeScript"
  else if suffixLower = ".js" then "JavaScript"
  else if suffixLower = ".jsx" then "JavaScript"
  else if suffixLower = ".java" then "Java"
  else if suffixLower = ".dart" then "Dart"
  else "code"

/-- `SelfHealingWorkflow._build_fix_prompt`: embeds the current code,
the first 10 errors, and the fixed instruction text. -/
def build_fix_prompt (code : String) (errors : List String) (language : String) : String :=
  let error_list := String.intercalate "\n" ((errors.take 10).map (fun e => "- " ++ e))
  "다음 " ++ language ++ " 코드에 오류가 있습니다. 수정해주세요.\n\n## 현재 코드\n"
    ++ fenceWrap language.toLower code
    ++ "\n\n## 발견된 오류\n" ++ error_list
    ++ "\n\n## 요청\n1. 위 오류를 수정한 완전한 코드를 반환하세요.\n2. 마크다운 코드 블록 없이 순수 "
    ++ language
    ++ " 코드만 반환하세요.\n3. 기존 로직은 유지하면서 오류만 수정하세요.\n4. 주석이나 설명 없이 코드만 반환하세요.\n"

/-- The attempt loop of `SelfHealingWorkflow.heal` (`for attempt in
range(1, self.max_attempts + 1)`). `attempt` is the 1-based attempt
index, `remaining` the iterations still to run, `content` the current
file content, `tr` the trace of attempt indices for which the
attempt-observer fired. Returns the result, the final file content and
the trace. -/
def healGo (env : HealEnv) (language : String) (max_attempts : Nat) :
    Nat → Nat → String → HealingResult → List Nat →
    HealingResult × String × List Nat
  | _, 0, content, res, tr => (res, content, tr)
  | attempt, remaining + 1, content, res, tr =>
    let res := { res with attempts := attempt }
    let tr := tr ++ [attempt]
    let fix_prompt := build_fix_prompt content
      (if attempt = 1 then res.original_errors else res.remaining_errors) language
    match env.genContent attempt fix_prompt with
    | none => healGo env language max_attempts (attempt + 1) remaining content res tr
    | some raw =>
      let fixed_code := cleanCodeOutput raw
      if fixed_code = "" then
        healGo env language max_attempts (attempt + 1) remaining content res tr
      else
        let res := { res with fixed_code := some fixed_code }
        let new_results := env.recheck attempt fixed_code
        if is_all_passed new_results then
          ({ res with success := true, remaining_errors := [] }, fixed_code, tr)
        else
          healGo env language max_attempts (attempt + 1) remaining fixed_code
            { res with remaining_errors := collect_errors new_results } tr

/-- `SelfHealingWorkflow.heal`. -/
def heal (env : HealEnv) (suffixLower : String) (max_attempts : Nat)
    (verify_results : List VerifyResult) : HealingResult × String × List Nat :=
  let original_errors := collect_errors verify_results
  let language := detect_language suffixLower
  healGo env language max_attempts 1 max_attempts env.initialContent
    { success := false, attempts := 0, original_errors := original_errors } []

/-- A syntax result that fails, for concrete pipeline runs. -/
def sampleFailSyn : VerifyResult :=
  { success := false, check_type := VerifyLevel.syn }

/-- A passing result of the given check type, for concrete pipeline
runs. -/
def samplePass (k : VerifyLevel) : VerifyResult :=
  { success := true, check_type := k }

/-- A verifier whose syntax check fails. -/
def vFailModel : VerifierModel :=
  { language := "Python", checkSynRes := sampleFailSyn,
    checkTypesRes := samplePass VerifyLevel.types,
    checkLintRes := fun _ => samplePass VerifyLevel.lint,
    runTestsRes := samplePass VerifyLevel.test }

/-- A verifier all of whose checks pass. -/
def vPassModel : VerifierModel :=
  { language := "Python", checkSynRes := samplePass VerifyLevel.syn,
    checkTypesRes := samplePass VerifyLevel.types,
    checkLintRes := fun _ => samplePass VerifyLevel.lint,
    runTestsRes := samplePass VerifyLevel.test }

/-- An error-level issue with the given message. -/
def errIssue (m : String) : VerifyIssue :=
  { level := "error", message := m }

/-- A main provider that always returns the same design content. -/
def mainOkProvider : AIProviderModel :=
  { name := "claude",
    generate := fun _ _ _ =>
      .ok { content := "DESIGN", model := "claude-model", usage := ⟨7, 9⟩ } }

/-- A knowledge provider that always raises `ProviderError`. -/
def knowledgeFailProvider : AIProviderModel :=
  { name := "gemini",
    generate := fun _ _ _ => .error { message := "backend unreachable", code := some "E100" } }

/-- A knowledge provider that always returns the same analysis
content. -/
def knowledgeOkProvider : AIProviderModel :=
  { name := "gemini",
    generate := fun _ _ _ =>
      .ok { content := "COMPAT NOTES", model := "gemini-model", usage := ⟨3, 4⟩ } }

/-- Orchestrator whose compatibility (knowledge) provider is down. -/
def compatDownOrch : DualModelOrchestrator :=
  { main := mainOkProvider, knowledge := knowledgeFailProvider }

/-- Orchestrator whose two providers both succeed. -/
def bothOkOrch : DualModelOrchestrator :=
  { main := mainOkProvider, knowledge := knowledgeOkProvider }

/-- A main provider that always raises `ProviderError`. -/
def mainFailProvider : AIProviderModel :=
  { name := "claude",
    generate := fun _ _ _ => .error { message := "rate limited", code := some "E429" } }

/-- Orchestrator whose main provider is down and whose knowledge
provider succeeds. -/
def codeDownOrch : DualModelOrchestrator :=
  { main := mainFailProvider, knowledge := knowledgeOkProvider }

/-- Attempt `n` of a healing run cannot succeed: whatever fix prompt it
is sent, the environment either yields no fix text (a swallowed
provider failure), a fix that cleans to the empty string, or a fix
whose syntax re-verification fails whatever was written. -/
def attemptFails (env : HealEnv) (n : Nat) : Prop :=
  ∀ p, match env.genContent n p with
    | none => True
    | some raw =>
        cleanCodeOutput raw = "" ∨ ∀ c, is_all_passed (env.recheck n c) = false

/-- An environment whose fix requests always fail (the orchestrator
call raises each time). -/
def healFailEnv : HealEnv :=
  { initialContent := "def f(:\n  pass",
    genContent := fun _ _ => none,
    recheck := fun _ _ => [sampleFailSyn] }

/-- An environment whose first fix request fails and whose second
returns a fenced fix that re-verifies successfully. -/
def healPassEnv : HealEnv :=
  { initialContent := "def f(:\n  pass",
    genContent := fun n _ =>
      if n = 1 then none else some "```python\ndef f():\n    pass\n```",
    recheck := fun n _ =>
      if n = 1 then [sampleFailSyn] else [samplePass VerifyLevel.syn] }

/-! ## Claim theorems -/

/-- C10: for a path that does not exist, `verify_file` returns exactly
one `VerifyResult` with `success = false`, `check_type = syntax` and an
empty issues list (only a textual output message), and invokes no
language-verifier check whatever level was requested. -/
theorem C10_verify_file_missing_path (pathStr : String) (v : VerifierModel)
    (level : VerifyLevel) (fix skip_tests : Bool) :
    verify_file false pathStr v level fix skip_tests =
      ([{ success := false, check_type := VerifyLevel.syn, issues := [],
          output := "파일을 찾을 수 없습니다: " ++ pathStr, fix_applied := false }], []) :=
  rfl

/-- C5: if `check_syntax` fails, `verify_all` returns exactly the one
syntax result and invokes none of types/lint/test; if syntax passes,
the pipeline runs types then lint then test in that order, omitting the
test stage when `skip_tests` is set. -/
theorem C5_verify_all_short_circuit (v : VerifierModel) (fix skip_tests : Bool) :
    (v.checkSynRes.success = false →
      verify_all v fix skip_tests = ([v.checkSynRes], [CheckKind.synCheck]))
  ∧ (v.checkSynRes.success = true →
      verify_all v fix skip_tests =
        ([v.checkSynRes, v.checkTypesRes, v.checkLintRes fix]
            ++ (if skip_tests then [] else [v.runTestsRes]),
         [CheckKind.synCheck, CheckKind.typesCheck, CheckKind.lintCheck]
            ++ (if skip_tests then [] else [CheckKind.testCheck]))) := by
  constructor
  · intro h
    simp [verify_all, h]
  · intro h
    cases skip_tests <;> simp [verify_all, h]

/-- Witness for C5: both branches of the pipeline theorem at concrete
verifiers. -/
theorem C5_witness :
    verify_all vFailModel false false = ([sampleFailSyn], [CheckKind.synCheck])
  ∧ verify_all vPassModel false false =
      ([samplePass VerifyLevel.syn, samplePass VerifyLevel.types,
        samplePass VerifyLevel.lint, samplePass VerifyLevel.test],
       [CheckKind.synCheck, CheckKind.typesCheck, CheckKind.lintCheck,
        CheckKind.testCheck]) := by
  constructor
  · exact (C5_verify_all_short_circuit vFailModel false false).1 rfl
  · simpa using (C5_verify_all_short_circuit vPassModel false false).2 rfl

/-- C7: for each external-tool-backed check (types, lint, tests): a
missing tool yields `success = true` with an explanatory note and no
issues; a timeout yields `success = false` with exactly one error-level
issue describing the timeout; any other exception is converted to
`success = false` with a single error-level issue instead of
propagating. -/
theorem C7_tool_failure_handling (fix : Bool) (msg fileName tf : String) :
    check_types ToolOutcome.toolMissing =
      { success := true, check_type := VerifyLevel.types,
        output := "mypy가 설치되지 않았습니다. 타입 검사를 건너뜁니다." }
  ∧ check_lint fix ToolOutcome.toolMissing =
      { success := true, check_type := VerifyLevel.lint,
        output := "ruff가 설치되지 않았습니다. 린트 검사를 건너뜁니다." }
  ∧ run_tests fileName (some tf) ToolOutcome.toolMissing =
      { success := true, check_type := VerifyLevel.test,
        output := "pytest가 설치되지 않았습니다. 테스트를 건너뜁니다." }
  ∧ check_types ToolOutcome.timedOut =
      { success := false, check_type := VerifyLevel.types,
        issues := [errIssue "타입 검사 타임아웃"] }
  ∧ check_lint fix ToolOutcome.timedOut =
      { success := false, check_type := VerifyLevel.lint,
        issues := [errIssue "린트 검사 타임아웃"] }
  ∧ run_tests fileName (some tf) ToolOutcome.timedOut =
      { success := false, check_type := VerifyLevel.test,
        issues := [errIssue "테스트 타임아웃"] }
  ∧ check_types (ToolOutcome.failed msg) =
      { success := false, check_type := VerifyLevel.types, issues := [errIssue msg] }
  ∧ check_lint fix (ToolOutcome.failed msg) =
      { success := false, check_type := VerifyLevel.lint, issues := [errIssue msg] }
  ∧ run_tests fileName (some tf) (ToolOutcome.failed msg) =
      { success := false, check_type := VerifyLevel.test, issues := [errIssue msg] } :=
  ⟨rfl, rfl, rfl, rfl, rfl, rfl, rfl, rfl, rfl⟩

/-- C6 counterexample: `ruff check --fix` exits with code 0 and the
report `All checks passed!` exactly when the file had no violation at
all, so no automatic correction was made to the file; `check_lint` with
`fix = true` nonetheless reports `fix_applied = true` (and no issues).
`fix_applied` therefore does not coincide with "a correction was
actually made". -/
theorem C6_counterexample :
    check_lint true (ToolOutcome.completed 0 "All checks passed!\n" "") =
      { success := true, check_type := VerifyLevel.lint, issues := [],
        output := "All checks passed!\n", fix_applied := true } := by
  decide

/-- C6 amended: for the Python verifier, `fix_applied` is true exactly
when `fix` was requested and the ruff invocation completed with exit
code 0 (`fix_applied=fix and success` in the source); it is not a
record of whether an automatic correction was actually made, and it is
false on the tool-missing/timeout/exception paths. -/
theorem C6_fix_applied_semantics (fix : Bool) (rc : Int) (out err msg : String) :
    (check_lint fix (ToolOutcome.completed rc out err)).fix_applied
        = (fix && rc = 0)
  ∧ (check_lint fix ToolOutcome.toolMissing).fix_applied = false
  ∧ (check_lint fix ToolOutcome.timedOut).fix_applied = false
  ∧ (check_lint fix (ToolOutcome.failed msg)).fix_applied = false :=
  ⟨rfl, rfl, rfl, rfl⟩

/-! ### C1 / C8 / C2: orchestrator phase protocols -/

/-- C1 counterexample: with a non-empty libraries list, a main provider
that succeeds, and a knowledge provider whose compatibility call raises
`ProviderError`, `execute_phase2_design` propagates that error instead
of returning an `OrchestratorResult` with the main provider's primary
content: the failed compatibility check is not silently omitted. -/
theorem C1_counterexample :
    (execute_phase2_design compatDownOrch [Message.mk "user" "design it"] none
        ["requests"]).result
      = .error { message := "backend unreachable", code := some "E100" } :=
  rfl

/-- C1 amended: the knowledge-provider compatibility call of
`execute_phase2_design` is not guarded by any handler, so whenever the
libraries list is non-empty, the main call succeeds and the
compatibility call raises a `ProviderError`, that error propagates out
of the method; only an empty libraries list skips the compatibility
check. -/
theorem C1_phase2_compat_error_propagates (o : DualModelOrchestrator)
    (messages : List Message) (system : Option String) (libraries : List String)
    (mr : Response) (e : ProviderError)
    (hmain : o.main.generate messages system 8192 = .ok mr)
    (hlibs : libraries ≠ [])
    (hknow : o.knowledge.generate [Message.mk "user" (phase2VerifyPrompt libraries)]
        none 2048 = .error e) :
    (execute_phase2_design o messages system libraries).result = .error e := by
  simp only [execute_phase2_design, hmain, if_pos hlibs, hknow]

/-- Witness for the C1 amended theorem at a concrete orchestrator. -/
theorem C1_witness :
    (execute_phase2_design compatDownOrch [Message.mk "user" "build a service"] none
        ["numpy", "pandas"]).result
      = .error { message := "backend unreachable", code := some "E100" } :=
  C1_phase2_compat_error_propagates compatDownOrch
    [Message.mk "user" "build a service"] none ["numpy", "pandas"]
    { content := "DESIGN", model := "claude-model", usage := ⟨7, 9⟩ }
    { message := "backend unreachable", code := some "E100" }
    rfl (by decide) rfl

/-- C8 counterexample: `execute_phase2_design` with a non-empty
libraries list and both providers succeeding invokes the knowledge
provider exactly once, yet the returned `OrchestratorResult` has
`knowledge_response = none`. -/
theorem C8_counterexample :
    knowledgeCallCount (execute_phase2_design bothOkOrch
        [Message.mk "user" "design it"] none ["requests"]).calls = 1
  ∧ ((execute_phase2_design bothOkOrch [Message.mk "user" "design it"] none
        ["requests"]).result.toOption.map OrchestratorResult.knowledge_response)
      = some none := by
  decide

/-- C8 amended: `execute_phase0_init`, phase-4 audit mode and the
phase-3 fallback do populate `knowledge_response`, but
`execute_phase1_plan` with external context and `execute_phase2_design`
with a non-empty libraries list invoke the knowledge provider exactly
once and still return `knowledge_response = none` (phase 1 sets the
field to `None` explicitly; phase 2 never sets it). -/
theorem C8_knowledge_response_not_populated (o : DualModelOrchestrator)
    (messages : List Message) (system : Option String) (ec : String)
    (libraries : List String) (kr mr : Response)
    (hec : ec ≠ "")
    (hlibs : libraries ≠ [])
    (hknow : ∀ ms s t, o.knowledge.generate ms s t = .ok kr)
    (hmain : ∀ ms s t, o.main.generate ms s t = .ok mr) :
    (knowledgeCallCount (execute_phase1_plan o messages system (some ec)).calls = 1
      ∧ ((execute_phase1_plan o messages system (some ec)).result.toOption.map
          OrchestratorResult.knowledge_response) = some none)
  ∧ (knowledgeCallCount (execute_phase2_design o messages system libraries).calls = 1
      ∧ ((execute_phase2_design o messages system libraries).result.toOption.map
          OrchestratorResult.knowledge_response) = some none) := by
  constructor
  · have hbne : (ec != "") = true := by simpa [bne_iff_ne] using hec
    simp only [execute_phase1_plan, hbne, if_pos, hknow, hmain]
    split
    · refine ⟨by simp [knowledgeCallCount], ?_⟩
      rfl
    · refine ⟨by simp [knowledgeCallCount], ?_⟩
      rfl
  · simp only [execute_phase2_design, hmain, if_pos hlibs, hknow]
    split
    · refine ⟨by simp [knowledgeCallCount], ?_⟩
      rfl
    · refine ⟨by simp [knowledgeCallCount], ?_⟩
      rfl

/-- Witness for the C8 amended theorem at a concrete orchestrator. -/
theorem C8_witness :
    (knowledgeCallCount (execute_phase1_plan bothOkOrch
        [Message.mk "user" "plan it"] none (some "reference docs")).calls = 1
      ∧ ((execute_phase1_plan bothOkOrch [Message.mk "user" "plan it"] none
          (some "reference docs")).result.toOption.map
          OrchestratorResult.knowledge_response) = some none)
  ∧ (knowledgeCallCount (execute_phase2_design bothOkOrch
        [Message.mk "user" "plan it"] none ["fastapi"]).calls = 1
      ∧ ((execute_phase2_design bothOkOrch [Message.mk "user" "plan it"] none
          ["fastapi"]).result.toOption.map
          OrchestratorResult.knowledge_response) = some none) :=
  C8_knowledge_response_not_populated bothOkOrch [Message.mk "user" "plan it"] none
    "reference docs" ["fastapi"]
    { content := "COMPAT NOTES", model := "gemini-model", usage := ⟨3, 4⟩ }
    { content := "DESIGN", model := "claude-model", usage := ⟨7, 9⟩ }
    (by decide) (by decide) (fun _ _ _ => rfl) (fun _ _ _ => rfl)

/-- Call counts add up over trace concatenation. -/
theorem mainCallCount_append (a b : List ProviderCall) :
    mainCallCount (a ++ b) = mainCallCount a + mainCallCount b := by
  simp [mainCallCount, List.filter_append]

/-- Under a main provider that always raises and a knowledge provider
that always answers `kr`, the phase-3 loop makes exactly `remaining`
further main calls and ends in the knowledge fallback result. -/
theorem phase3Go_all_fail (o : DualModelOrchestrator) (messages : List Message)
    (system : Option String) (max_retries : Nat) (kr : Response)
    (hmain : ∀ ms s t, ∃ e, o.main.generate ms s t = Except.error e)
    (hknow : ∀ ms s t, o.knowledge.generate ms s t = Except.ok kr) :
    ∀ remaining attempt last_error log calls,
      (∃ lg,
        (phase3Go o messages system max_retries attempt remaining last_error log
            calls).result
          = .ok { content := "코드 생성 실패. Gemini 분석:\n\n" ++ kr.content,
                  main_response := none, knowledge_response := some kr,
                  model_used := o.knowledge.name, collaboration_log := some lg })
      ∧ mainCallCount (phase3Go o messages system max_retries attempt remaining
            last_error log calls).calls
          = mainCallCount calls + remaining := by
  intro remaining
  induction remaining with
  | zero =>
    intro attempt last_error log calls
    refine ⟨⟨log ++ ["Phase 3: Gemini가 에러를 분석합니다."], ?_⟩, ?_⟩
    · simp [phase3Go, hknow]
    · simp [phase3Go, hknow, mainCallCount_append, mainCallCount]
  | succ r ih =>
    intro attempt last_error log calls
    obtain ⟨e, he⟩ :=
      hmain (phase3Args messages max_retries attempt last_error log).1 system 8192
    simp only [phase3Go, he]
    refine ⟨(ih _ _ _ _).1, ?_⟩
    rw [(ih _ _ _ _).2, mainCallCount_append]
    simp [mainCallCount]
    omega

/-- C2: with a main provider whose `generate` always raises
`ProviderError` and a knowledge provider answering `kr`,
`execute_phase3_code` invokes the main provider exactly `max_retries`
times and then returns (does not raise) an `OrchestratorResult` whose
content is the knowledge provider's analysis prefixed with the
generation-failure marker, with `model_used` naming the knowledge
provider and `knowledge_response` carrying its response. -/
theorem C2_phase3_retry_cap (o : DualModelOrchestrator) (messages : List Message)
    (system : Option String) (full_codebase : Option (List (String × String)))
    (max_retries : Nat) (kr : Response)
    (hmain : ∀ ms s t, ∃ e, o.main.generate ms s t = Except.error e)
    (hknow : ∀ ms s t, o.knowledge.generate ms s t = Except.ok kr) :
    mainCallCount (execute_phase3_code o messages system full_codebase
        max_retries).calls = max_retries
  ∧ ∃ lg,
      (execute_phase3_code o messages system full_codebase max_retries).result
        = .ok { content := "코드 생성 실패. Gemini 분석:\n\n" ++ kr.content,
                main_response := none, knowledge_response := some kr,
                model_used := o.knowledge.name, collaboration_log := some lg } := by
  have h := phase3Go_all_fail o messages system max_retries kr hmain hknow
  constructor
  · simp only [execute_phase3_code]
    rw [(h max_retries 0 none _ []).2]
    simp [mainCallCount]
  · simp only [execute_phase3_code]
    exact (h max_retries 0 none _ []).1

/-- Witness for C2 at a concrete orchestrator with `max_retries = 3`. -/
theorem C2_witness :
    mainCallCount (execute_phase3_code codeDownOrch
        [Message.mk "user" "write the code"] none none 3).calls = 3
  ∧ ∃ lg,
      (execute_phase3_code codeDownOrch [Message.mk "user" "write the code"]
          none none 3).result
        = .ok { content := "코드 생성 실패. Gemini 분석:\n\n" ++ "COMPAT NOTES",
                main_response := none,
                knowledge_response := some
                  { content := "COMPAT NOTES", model := "gemini-model", usage := ⟨3, 4⟩ },
                model_used := "gemini", collaboration_log := some lg } :=
  C2_phase3_retry_cap codeDownOrch [Message.mk "user" "write the code"] none none 3
    { content := "COMPAT NOTES", model := "gemini-model", usage := ⟨3, 4⟩ }
    (fun _ _ _ => ⟨{ message := "rate limited", code := some "E429" }, rfl⟩)
    (fun _ _ _ => rfl)

/-! ### C3 / C4: the self-healing attempt loop -/

/-- If every attempt in the window fails, the loop preserves `success`
and ends with `attempts` equal to the last attempt index of the
window. -/
theorem healGo_fail (env : HealEnv) (language : String) (max_attempts : Nat) :
    ∀ r a content res tr,
      (∀ n, a ≤ n → n < a + r → attemptFails env n) →
      (healGo env language max_attempts a r content res tr).1.success = res.success
      ∧ (healGo env language max_attempts a r content res tr).1.attempts
          = (if r = 0 then res.attempts else a + r - 1) := by
  intro r
  induction r with
  | zero => intro a content res tr _; simp [healGo]
  | succ r ih =>
    intro a content res tr H
    have hfail := H a (Nat.le_refl a) (by omega)
    have Hnext : ∀ n, a + 1 ≤ n → n < (a + 1) + r → attemptFails env n :=
      fun n h1 h2 => H n (by omega) (by omega)
    cases hg : env.genContent a (build_fix_prompt content
        (if a = 1 then res.original_errors else res.remaining_errors) language) with
    | none =>
      simp only [healGo, hg]
      have h := ih (a + 1) content { res with attempts := a } (tr ++ [a]) Hnext
      refine ⟨h.1, ?_⟩
      rw [h.2]
      rcases Nat.eq_zero_or_pos r with h0 | h0
      · subst h0; simp
      · rw [if_neg (by omega), if_neg (by omega)]; omega
    | some raw =>
      have hr := hfail (build_fix_prompt content
        (if a = 1 then res.original_errors else res.remaining_errors) language)
      rw [hg] at hr
      by_cases hfc : cleanCodeOutput raw = ""
      · simp only [healGo, hg, if_pos hfc]
        have h := ih (a + 1) content { res with attempts := a } (tr ++ [a]) Hnext
        refine ⟨h.1, ?_⟩
        rw [h.2]
        rcases Nat.eq_zero_or_pos r with h0 | h0
        · subst h0; simp
        · rw [if_neg (by omega), if_neg (by omega)]; omega
      · rcases hr with hr | hr
        · exact absurd hr hfc
        · simp only [healGo, hg, if_neg hfc, hr (cleanCodeOutput raw)]
          rw [if_neg (show ¬(false = true) by decide)]
          have h := ih (a + 1) (cleanCodeOutput raw)
            { res with
                attempts := a
                fixed_code := some (cleanCodeOutput raw)
                remaining_errors := collect_errors (env.recheck a (cleanCodeOutput raw)) }
            (tr ++ [a]) Hnext
          refine ⟨h.1, ?_⟩
          rw [h.2]
          rcases Nat.eq_zero_or_pos r with h0 | h0
          · subst h0; simp
          · rw [if_neg (by omega), if_neg (by omega)]; omega

/-- The loop never pushes `attempts` beyond the last attempt index it
may reach. -/
theorem healGo_attempts_le (env : HealEnv) (language : String)
    (max_attempts m : Nat) :
    ∀ r a content res tr,
      res.attempts ≤ m → a + r ≤ m + 1 →
      (healGo env language max_attempts a r content res tr).1.attempts ≤ m := by
  intro r
  induction r with
  | zero => intro a content res tr h _; simpa [healGo] using h
  | succ r ih =>
    intro a content res tr h hr
    cases hg : env.genContent a (build_fix_prompt content
        (if a = 1 then res.original_errors else res.remaining_errors) language) with
    | none =>
      simp only [healGo, hg]
      exact ih (a + 1) content _ (tr ++ [a]) (by show a ≤ m; omega) (by omega)
    | some raw =>
      by_cases hfc : cleanCodeOutput raw = ""
      · simp only [healGo, hg, if_pos hfc]
        exact ih (a + 1) content _ (tr ++ [a]) (by show a ≤ m; omega) (by omega)
      · by_cases hp : is_all_passed (env.recheck a (cleanCodeOutput raw)) = true
        · simp only [healGo, hg, if_neg hfc, hp, if_pos rfl]
          show a ≤ m
          omega
        · simp only [healGo, hg, if_neg hfc, if_neg hp]
          exact ih (a + 1) (cleanCodeOutput raw) _ (tr ++ [a])
            (by show a ≤ m; omega) (by omega)

/-- C3: when every attempt's re-verification fails or yields no fix
text, `heal` returns `success = false` with `attempts` equal to exactly
`max_attempts`; and in any run whatsoever, `attempts` never exceeds the
configured maximum. -/
theorem C3_heal_exhaustion (env : HealEnv) (suffixLower : String)
    (max_attempts : Nat) (verify_results : List VerifyResult)
    (H : ∀ n, 1 ≤ n → n ≤ max_attempts → attemptFails env n) :
    ((heal env suffixLower max_attempts verify_results).1.success = false
      ∧ (heal env suffixLower max_attempts verify_results).1.attempts = max_attempts)
  ∧ ∀ (env' : HealEnv) (sfx : String) (m : Nat) (vrs : List VerifyResult),
      (heal env' sfx m vrs).1.attempts ≤ m := by
  constructor
  · have h := healGo_fail env (detect_language suffixLower) max_attempts
      max_attempts 1 env.initialContent
      { success := false, attempts := 0,
        original_errors := collect_errors verify_results } []
      (fun n h1 h2 => H n h1 (by omega))
    simp only [heal]
    refine ⟨h.1, ?_⟩
    rw [h.2]
    rcases Nat.eq_zero_or_pos max_attempts with h0 | h0
    · subst h0; simp
    · rw [if_neg (by omega)]; omega
  · intro env' sfx m vrs
    simp only [heal]
    exact healGo_attempts_le env' (detect_language sfx) m m m 1 env'.initialContent
      _ [] (by show 0 ≤ m; omega) (by omega)

/-- Witness for C3 at a concrete environment with `max_attempts = 2`. -/
theorem C3_witness :
    (heal healFailEnv ".py" 2 [sampleFailSyn]).1.success = false
  ∧ (heal healFailEnv ".py" 2 [sampleFailSyn]).1.attempts = 2 :=
  (C3_heal_exhaustion healFailEnv ".py" 2 [sampleFailSyn]
    (fun _ _ _ _ => trivial)).1

/-- If attempts before `k` fail and attempt `k` returns a fix whose
re-verification passes, the loop stops at `k` with the success
result and the trace `[a, ..., k]`. -/
theorem healGo_pass (env : HealEnv) (language : String) (max_attempts k : Nat)
    (raw : String)
    (hgen : ∀ p, env.genContent k p = some raw)
    (hne : cleanCodeOutput raw ≠ "")
    (hpass : ∀ c, is_all_passed (env.recheck k c) = true) :
    ∀ r a content res tr,
      a ≤ k → k < a + r →
      (∀ j, a ≤ j → j < k → attemptFails env j) →
      healGo env language max_attempts a r content res tr =
        ({ success := true, attempts := k,
           original_errors := res.original_errors,
           remaining_errors := [], fixed_code := some (cleanCodeOutput raw) },
         cleanCodeOutput raw, tr ++ List.range' a (k + 1 - a)) := by
  intro r
  induction r with
  | zero => intro a content res tr h1 h2 _; omega
  | succ r ih =>
    intro a content res tr h1 h2 H
    rcases Nat.eq_or_lt_of_le h1 with heq | hlt
    · subst heq
      simp only [healGo, hgen, if_neg hne, hpass, if_pos rfl]
      have hone : a + 1 - a = 1 := by omega
      rw [hone, List.range'_one]
      cases res
      rfl
    · have hfail := H a (Nat.le_refl a) hlt
      have Hnext : ∀ j, a + 1 ≤ j → j < k → attemptFails env j :=
        fun j hj1 hj2 => H j (by omega) hj2
      have hk : k + 1 - a = (k - a) + 1 := by omega
      have hk2 : k + 1 - (a + 1) = k - a := by omega
      cases hg : env.genContent a (build_fix_prompt content
          (if a = 1 then res.original_errors else res.remaining_errors) language) with
      | none =>
        simp only [healGo, hg]
        rw [ih (a + 1) content { res with attempts := a } (tr ++ [a])
          (by omega) (by omega) Hnext]
        rw [hk, hk2, List.range'_succ, List.append_assoc]
        rfl
      | some rw0 =>
        have hr := hfail (build_fix_prompt content
          (if a = 1 then res.original_errors else res.remaining_errors) language)
        rw [hg] at hr
        by_cases hfc : cleanCodeOutput rw0 = ""
        · simp only [healGo, hg, if_pos hfc]
          rw [ih (a + 1) content { res with attempts := a } (tr ++ [a])
            (by omega) (by omega) Hnext]
          rw [hk, hk2, List.range'_succ, List.append_assoc]
          rfl
        · rcases hr with hr | hr
          · exact absurd hr hfc
          · simp only [healGo, hg, if_neg hfc, hr (cleanCodeOutput rw0)]
            rw [if_neg (show ¬(false = true) by decide)]
            rw [ih (a + 1) (cleanCodeOutput rw0)
              { res with
                  attempts := a
                  fixed_code := some (cleanCodeOutput rw0)
                  remaining_errors := collect_errors (env.recheck a (cleanCodeOutput rw0)) }
              (tr ++ [a]) (by omega) (by omega) Hnext]
            rw [hk, hk2, List.range'_succ, List.append_assoc]
            rfl

/-- C4: when the attempts before `k` fail and attempt `k < max_attempts`
yields a fix whose syntax re-check passes, `heal` stops at attempt `k`
(the attempt-observer trace is exactly `[1, ..., k]`, so no attempt
`k + 1` occurs) with `attempts = k`, `success = true`, empty
`remaining_errors`, and `fixed_code` set to the written fix. -/
theorem C4_heal_short_circuit (env : HealEnv) (suffixLower : String)
    (max_attempts k : Nat) (verify_results : List VerifyResult) (raw : String)
    (hk1 : 1 ≤ k) (hkM : k < max_attempts)
    (hfail : ∀ j, 1 ≤ j → j < k → attemptFails env j)
    (hgen : ∀ p, env.genContent k p = some raw)
    (hne : cleanCodeOutput raw ≠ "")
    (hpass : ∀ c, is_all_passed (env.recheck k c) = true) :
    (heal env suffixLower max_attempts verify_results).1 =
      { success := true, attempts := k,
        original_errors := collect_errors verify_results,
        remaining_errors := [], fixed_code := some (cleanCodeOutput raw) }
  ∧ (heal env suffixLower max_attempts verify_results).2.2 = List.range' 1 k := by
  have h := healGo_pass env (detect_language suffixLower) max_attempts k raw
    hgen hne hpass max_attempts 1 env.initialContent
    { success := false, attempts := 0,
      original_errors := collect_errors verify_results } []
    hk1 (by omega) hfail
  simp only [heal]
  rw [h]
  exact ⟨rfl, rfl⟩

/-- Witness for C4 at a concrete environment: attempt 1 fails, attempt
2 succeeds, `max_attempts = 3`. -/
theorem C4_witness :
    (heal healPassEnv ".py" 3 [sampleFailSyn]).1 =
      { success := true, attempts := 2,
        original_errors := collect_errors [sampleFailSyn],
        remaining_errors := [],
        fixed_code := some (cleanCodeOutput "```python\ndef f():\n    pass\n```") }
  ∧ (heal healPassEnv ".py" 3 [sampleFailSyn]).2.2 = List.range' 1 2 :=
  C4_heal_short_circuit healPassEnv ".py" 3 2 [sampleFailSyn]
    "```python\ndef f():\n    pass\n```"
    (by omega) (by omega)
    (fun j hj1 hj2 => by
      interval_cases j
      · intro p; simp [healPassEnv])
    (fun p => by simp [healPassEnv])
    (by decide)
    (fun c => by simp [healPassEnv, is_all_passed, samplePass])

/-! ### C9: the markdown fence round trip -/

/-- Unfolding of `hasTriple` on a cons cell. -/
theorem hasTriple_cons (a : Char) (tl : List Char) :
    hasTriple (a :: tl) = (isTripleAt (a :: tl) || hasTriple tl) := by
  unfold hasTriple
  rw [findFence]
  split
  · simp_all
  · simp_all [Option.isSome_map]

/-- A text has a triple-backtick marker iff it decomposes around one. -/
theorem hasTriple_iff (s : List Char) :
    hasTriple s = true ↔
      ∃ l r, s = l ++ btChar :: btChar :: btChar :: r := by
  induction s with
  | nil =>
    simp [hasTriple, findFence]
  | cons a tl ih =>
    rw [hasTriple_cons, Bool.or_eq_true]
    constructor
    · rintro (h | h)
      · match tl, h with
        | b :: c :: rest, h =>
          simp only [isTripleAt, Bool.and_eq_true, decide_eq_true_eq] at h
          obtain ⟨⟨h1, h2⟩, h3⟩ := h
          exact ⟨[], rest, by simp [h1, h2, h3]⟩
      · obtain ⟨l, r, rfl⟩ := ih.1 h
        exact ⟨a :: l, r, rfl⟩
    · rintro ⟨l, r, hs⟩
      cases l with
      | nil =>
        simp only [List.nil_append, List.cons.injEq] at hs
        left
        obtain ⟨h1, h2⟩ := hs
        subst h1 h2
        simp [isTripleAt]
      | cons x l' =>
        simp only [List.cons_append, List.cons.injEq] at hs
        right
        exact ih.2 ⟨l', r, hs.2⟩

/-- A marker-free text has marker-free contiguous fragments. -/
theorem hasTriple_infix (s u v w : List Char) (hs : hasTriple s = false)
    (hdec : s = u ++ v ++ w) : hasTriple v = false := by
  by_contra h
  rw [Bool.not_eq_false, hasTriple_iff] at h
  obtain ⟨l, r, rfl⟩ := h
  rw [Bool.eq_false_iff] at hs
  exact hs (hasTriple_iff s |>.2 ⟨u ++ l, r ++ w, by simp [hdec]⟩)

/-- `isTripleAt` only inspects the first three characters. -/
theorem isTripleAt_eq_of_take (x y : List Char) (h : x.take 3 = y.take 3) :
    isTripleAt x = isTripleAt y := by
  match x, y, h with
  | [], [], _ => rfl
  | a :: b :: c :: _, a' :: b' :: c' :: _, h =>
    simp only [List.take, List.cons.injEq] at h
    obtain ⟨rfl, rfl, rfl, -⟩ := h
    rfl
  | [], _ :: _, h => simp [List.take] at h
  | _ :: _, [], h => simp [List.take] at h
  | [a], [a'], h => rfl
  | [a], a' :: b' :: _, h => simp [List.take] at h
  | a :: b :: _, [a'], h => simp [List.take] at h
  | [a, b], [a', b'], h => rfl
  | [a, b], a' :: b' :: c' :: _, h => simp [List.take] at h
  | a :: b :: c :: _, [a', b'], h => simp [List.take] at h

/-- Appending a newline and two backticks to a marker-free text ending
cannot create a marker. -/
theorem hasTriple_append_nl_bb (w : List Char) (hw : hasTriple w = false) :
    hasTriple (w ++ '\n' :: [btChar, btChar]) = false := by
  induction w with
  | nil => decide
  | cons a w' ih =>
    rw [hasTriple_cons, Bool.or_eq_false_iff] at hw
    rw [List.cons_append, hasTriple_cons, Bool.or_eq_false_iff]
    refine ⟨?_, ih hw.2⟩
    have hnl : decide ('\n' = btChar) = false := by decide
    match w', hw with
    | [], hw => simp [isTripleAt, hnl]
    | [c], hw => simp [isTripleAt, hnl]
    | c :: d :: w'', hw =>
      rw [show (a :: (c :: d :: w'' ++ '\n' :: [btChar, btChar])) =
        a :: c :: d :: (w'' ++ '\n' :: [btChar, btChar]) from rfl]
      rw [isTripleAt_eq_of_take _ (a :: c :: d :: w'') (by simp [List.take])]
      exact hw.1

/-- Splitting at the first marker after a marker-free chunk: the lazy
group of the fence pattern extends exactly to the closing fence. -/
theorem findFence_boundary (x rest : List Char)
    (hx : hasTriple (x ++ [btChar, btChar]) = false) :
    findFence (x ++ btChar :: btChar :: btChar :: rest) = some (x, rest) := by
  induction x with
  | nil =>
    rw [List.nil_append, findFence]
    simp [isTripleAt]
  | cons a x' ih =>
    rw [List.cons_append] at hx
    rw [hasTriple_cons, Bool.or_eq_false_iff] at hx
    rw [List.cons_append, findFence]
    have h3 : isTripleAt (a :: (x' ++ btChar :: btChar :: btChar :: rest)) = false := by
      rw [isTripleAt_eq_of_take _ (a :: (x' ++ [btChar, btChar]))]
      · exact hx.1
      · match x' with
        | [] => simp [List.take]
        | [c] => simp [List.take]
        | c :: d :: x'' => simp [List.take]
    rw [h3]
    simp only [Bool.false_eq_true, if_false]
    rw [ih hx.2]
    rfl

/-- `dropWhile` passes over a block every element of which satisfies
the predicate. -/
theorem dropWhile_all_append (p : Char → Bool) (u v : List Char)
    (h : ∀ a ∈ u, p a = true) :
    (u ++ v).dropWhile p = v.dropWhile p := by
  induction u with
  | nil => rfl
  | cons a u' ih =>
    rw [List.cons_append, List.dropWhile_cons, if_pos (h a (by simp))]
    exact ih (fun b hb => h b (by simp [hb]))

/-- `takeWhile` consumes a block every element of which satisfies the
predicate and continues beyond it. -/
theorem takeWhile_all_append (p : Char → Bool) (u v : List Char)
    (h : ∀ a ∈ u, p a = true) :
    (u ++ v).takeWhile p = u ++ v.takeWhile p := by
  induction u with
  | nil => rfl
  | cons a u' ih =>
    rw [List.cons_append, List.takeWhile_cons, if_pos (h a (by simp))]
    rw [ih (fun b hb => h b (by simp [hb])), List.cons_append]

/-- The suffix left by `dropWhile` is unchanged by a further
surrounding block on the right once the head fails the predicate. -/
theorem dropWhile_append_of_ne_nil (p : Char → Bool) (u v : List Char)
    (h : u.dropWhile p ≠ []) :
    (u ++ v).dropWhile p = u.dropWhile p ++ v := by
  induction u with
  | nil => exact absurd rfl h
  | cons a u' ih =>
    by_cases hp : p a = true
    · rw [List.cons_append, List.dropWhile_cons, if_pos hp,
        List.dropWhile_cons, if_pos hp]
      apply ih
      rw [List.dropWhile_cons, if_pos hp] at h
      exact h
    · rw [List.cons_append, List.dropWhile_cons, if_neg hp,
        List.dropWhile_cons, if_neg hp, List.cons_append]

/-- Stripping ignores an all-whitespace block on the left. -/
theorem pyStripL_ws_left (u v : List Char) (h : ∀ a ∈ u, pyIsSpace a = true) :
    pyStripL (u ++ v) = pyStripL v := by
  unfold pyStripL
  rw [dropWhile_all_append _ _ _ h]

/-- Stripping ignores an all-whitespace block on the right. -/
theorem pyStripL_ws_right (u v : List Char) (h : ∀ a ∈ u, pyIsSpace a = true) :
    pyStripL (v ++ u) = pyStripL v := by
  unfold pyStripL
  by_cases hv : v.dropWhile pyIsSpace = []
  · rw [dropWhile_all_append _ v u (by
      intro a ha
      exact List.dropWhile_eq_nil_iff.1 hv a ha)]
    rw [hv, List.dropWhile_eq_nil_iff.2 h]
  · rw [dropWhile_append_of_ne_nil _ _ _ hv, List.reverse_append]
    rw [dropWhile_all_append _ _ _ (by intro a ha; exact h a (by simpa using ha))]

/-- Stripping an all-whitespace text gives the empty text. -/
theorem pyStripL_all_space (t : List Char) (h : ∀ a ∈ t, pyIsSpace a = true) :
    pyStripL t = [] := by
  unfold pyStripL
  rw [List.dropWhile_eq_nil_iff.2 h]
  rfl

/-- The head left by `dropWhile` fails the predicate. -/
theorem dropWhile_head_false (p : Char → Bool) :
    ∀ (l : List Char) (c : Char) (r : List Char),
      l.dropWhile p = c :: r → p c = false := by
  intro l
  induction l with
  | nil => intro c r h; simp [List.dropWhile] at h
  | cons a l' ih =>
    intro c r h
    rw [List.dropWhile_cons] at h
    by_cases hp : p a = true
    · rw [if_pos hp] at h
      exact ih c r h
    · rw [if_neg hp] at h
      injection h with h1 h2
      rw [← h1]
      simpa using hp

/-- Every element taken by `takeWhile` satisfies the predicate. -/
theorem mem_takeWhile_sat (p : Char → Bool) :
    ∀ (l : List Char) (a : Char), a ∈ l.takeWhile p → p a = true := by
  intro l
  induction l with
  | nil => intro a h; simp [List.takeWhile] at h
  | cons b l' ih =>
    intro a h
    rw [List.takeWhile_cons] at h
    by_cases hp : p b = true
    · rw [if_pos hp] at h
      rcases List.mem_cons.1 h with rfl | h
      · exact hp
      · exact ih a h
    · rw [if_neg hp] at h
      simp at h

/-- The leading-whitespace suffix of the text survives under the
stripped text on the right. -/
theorem dropWhile_eq_pyStripL_append (s : List Char) :
    s.dropWhile pyIsSpace =
      pyStripL s ++ ((s.dropWhile pyIsSpace).reverse.takeWhile pyIsSpace).reverse := by
  conv_lhs => rw [← List.reverse_reverse (s.dropWhile pyIsSpace),
    ← List.takeWhile_append_dropWhile pyIsSpace (s.dropWhile pyIsSpace).reverse]
  rw [List.reverse_append]
  rfl

/-- The stripped text sits inside the original as a contiguous
fragment, flanked by whitespace. -/
theorem pyStripL_infix (s : List Char) :
    ∃ u w, s = u ++ pyStripL s ++ w
      ∧ (∀ a ∈ u, pyIsSpace a = true) ∧ (∀ a ∈ w, pyIsSpace a = true) := by
  refine ⟨s.takeWhile pyIsSpace,
    ((s.dropWhile pyIsSpace).reverse.takeWhile pyIsSpace).reverse, ?_, ?_, ?_⟩
  · conv_lhs => rw [← List.takeWhile_append_dropWhile pyIsSpace s,
      dropWhile_eq_pyStripL_append s]
    rw [List.append_assoc]
  · exact fun a ha => mem_takeWhile_sat pyIsSpace s a ha
  · intro a ha
    exact mem_takeWhile_sat pyIsSpace _ a (by simpa using ha)

/-- Stripping is idempotent. -/
theorem pyStripL_idem (s : List Char) : pyStripL (pyStripL s) = pyStripL s := by
  have hzrev : (pyStripL s).reverse
      = (s.dropWhile pyIsSpace).reverse.dropWhile pyIsSpace := by
    unfold pyStripL
    rw [List.reverse_reverse]
  have hb : (pyStripL s).reverse.dropWhile pyIsSpace = (pyStripL s).reverse := by
    rw [hzrev]
    exact List.dropWhile_idempotent pyIsSpace _
  have ha : (pyStripL s).dropWhile pyIsSpace = pyStripL s := by
    rcases hps : pyStripL s with _ | ⟨c, r⟩
    · rfl
    · obtain ⟨w, hw⟩ : ∃ w, pyStripL s ++ w = s.dropWhile pyIsSpace :=
        ⟨_, (dropWhile_eq_pyStripL_append s).symm⟩
      rw [hps] at hw
      cases hyc : s.dropWhile pyIsSpace with
      | nil => rw [hyc] at hw; simp at hw
      | cons d y' =>
        rw [hyc, List.cons_append] at hw
        injection hw with hcd hw2
        have hd : pyIsSpace d = false := dropWhile_head_false pyIsSpace s d y' hyc
        rw [List.dropWhile_cons, if_neg (by rw [hcd, hd]; simp)]
  calc pyStripL (pyStripL s)
      = (((pyStripL s).dropWhile pyIsSpace).reverse.dropWhile pyIsSpace).reverse := rfl
    _ = ((pyStripL s).reverse.dropWhile pyIsSpace).reverse := by rw [ha]
    _ = ((pyStripL s).reverse).reverse := by rw [hb]
    _ = pyStripL s := List.reverse_reverse _

/-- After the opening fence and the language tag, the regex continuation
consumes whitespace through its last newline and groups exactly the text
up to the closing fence; the group strips to the stripped inner text. -/
theorem matchAfterFence_fence (t : List Char) (ht : hasTriple t = false) :
    ∃ g, matchAfterFence ('\n' :: (t ++ '\n' :: [btChar, btChar, btChar])) = some g
      ∧ pyStripL g = pyStripL t := by
  have hnls : pyIsSpace '\n' = true := by decide
  by_cases hT2 : t.dropWhile pyIsSpace = []
  · -- whole inner text is whitespace
    have hall : ∀ a ∈ t, pyIsSpace a = true := List.dropWhile_eq_nil_iff.1 hT2
    have htw : ('\n' :: (t ++ '\n' :: [btChar, btChar, btChar])).takeWhile pyIsSpace
        = '\n' :: (t ++ ['\n']) := by
      rw [List.takeWhile_cons, if_pos hnls, takeWhile_all_append pyIsSpace t _ hall,
        List.takeWhile_cons, if_pos hnls, List.takeWhile_cons, if_neg (by decide)]
    have hrev : ('\n' :: (t ++ ['\n'])).reverse.takeWhile (fun x => x != '\n') = [] := by
      rw [List.reverse_cons, List.reverse_append,
        show (['\n'] : List Char).reverse = ['\n'] from rfl, List.singleton_append,
        List.cons_append, List.takeWhile_cons, if_neg (by decide)]
    have hlen : ('\n' :: (t ++ ['\n'])).length = t.length + 2 := by simp
    have hff : findFence [btChar, btChar, btChar] = some ([], []) := by
      rw [findFence]
      simp [isTripleAt]
    refine ⟨[], ?_, ?_⟩
    · unfold matchAfterFence
      rw [htw, if_pos (by simp), hrev, List.length_nil, Nat.sub_zero, hlen]
      rw [show ('\n' :: (t ++ '\n' :: [btChar, btChar, btChar]))
          = ('\n' :: (t ++ ['\n'])) ++ [btChar, btChar, btChar] by simp]
      rw [← hlen, List.drop_left, hff]
      rfl
    · rw [pyStripL_all_space t hall]
      rfl
  · obtain ⟨c, t2', hT2eq⟩ : ∃ c t2', t.dropWhile pyIsSpace = c :: t2' := by
      cases h : t.dropWhile pyIsSpace with
      | nil => exact absurd h hT2
      | cons c t2' => exact ⟨c, t2', rfl⟩
    have hc : pyIsSpace c = false := dropWhile_head_false pyIsSpace t c t2' hT2eq
    have hPt : t.takeWhile pyIsSpace ++ c :: t2' = t := by
      conv_rhs => rw [← List.takeWhile_append_dropWhile pyIsSpace t]
      rw [hT2eq]
    have hPall : ∀ a ∈ t.takeWhile pyIsSpace, pyIsSpace a = true :=
      fun a ha => mem_takeWhile_sat pyIsSpace t a ha
    have htw : ('\n' :: (t ++ '\n' :: [btChar, btChar, btChar])).takeWhile pyIsSpace
        = '\n' :: t.takeWhile pyIsSpace := by
      rw [List.takeWhile_cons, if_pos hnls]
      congr 1
      conv_lhs => rw [← hPt]
      rw [List.append_assoc, takeWhile_all_append pyIsSpace _ _ hPall,
        List.cons_append, List.takeWhile_cons, if_neg (by rw [hc]; simp),
        List.append_nil]
    by_cases hR2 : (t.takeWhile pyIsSpace).reverse.dropWhile (fun x => x != '\n') = []
    · -- the leading whitespace of `t` contains no newline
      have hPq : ∀ a ∈ (t.takeWhile pyIsSpace).reverse, (a != '\n') = true :=
        List.dropWhile_eq_nil_iff.1 hR2
      have htrail : ('\n' :: t.takeWhile pyIsSpace).reverse.takeWhile
          (fun x => x != '\n') = (t.takeWhile pyIsSpace).reverse := by
        rw [List.reverse_cons, takeWhile_all_append _ _ _ hPq,
          List.takeWhile_cons, if_neg (by decide), List.append_nil]
      have hamt : ('\n' :: t.takeWhile pyIsSpace).length
          - (t.takeWhile pyIsSpace).reverse.length = 1 := by simp
      have hnb : hasTriple ((t ++ ['\n']) ++ [btChar, btChar]) = false := by
        rw [List.append_assoc]
        exact hasTriple_append_nl_bb t ht
      have hff := findFence_boundary (t ++ ['\n']) [] hnb
      refine ⟨t ++ ['\n'], ?_, ?_⟩
      · unfold matchAfterFence
        rw [htw, if_pos (by simp), htrail, hamt, List.drop_one]
        rw [show ('\n' :: (t ++ '\n' :: [btChar, btChar, btChar])).tail
            = (t ++ ['\n']) ++ btChar :: btChar :: btChar :: [] by simp]
        rw [hff]
        rfl
      · exact pyStripL_ws_right ['\n'] t
          (by intro a ha; rw [List.mem_singleton] at ha; subst ha; decide)
    · -- the leading whitespace of `t` contains a newline
      obtain ⟨d, R2', hR2eq⟩ :
          ∃ d R2', (t.takeWhile pyIsSpace).reverse.dropWhile (fun x => x != '\n')
            = d :: R2' := by
        cases h : (t.takeWhile pyIsSpace).reverse.dropWhile (fun x => x != '\n') with
        | nil => exact absurd h hR2
        | cons d R2' => exact ⟨d, R2', rfl⟩
      have hd : (d != '\n') = false :=
        dropWhile_head_false _ (t.takeWhile pyIsSpace).reverse d R2' hR2eq
      have hdnl : d = '\n' := by simpa using hd
      subst hdnl
      have hPrev : (t.takeWhile pyIsSpace).reverse.takeWhile (fun x => x != '\n')
          ++ '\n' :: R2' = (t.takeWhile pyIsSpace).reverse := by
        conv_rhs => rw [← List.takeWhile_append_dropWhile
          (fun x => x != '\n') (t.takeWhile pyIsSpace).reverse]
        rw [hR2eq]
      have hQall : ∀ a ∈ (t.takeWhile pyIsSpace).reverse.takeWhile
          (fun x => x != '\n'), (a != '\n') = true :=
        fun a ha => mem_takeWhile_sat _ _ a ha
      have hQspace : ∀ a ∈ ((t.takeWhile pyIsSpace).reverse.takeWhile
          (fun x => x != '\n')).reverse, pyIsSpace a = true := by
        intro a ha
        rw [List.mem_reverse] at ha
        have h1 : a ∈ (t.takeWhile pyIsSpace).reverse :=
          List.takeWhile_subset _ ha
        rw [List.mem_reverse] at h1
        exact hPall a h1
      have hPdecomp : t.takeWhile pyIsSpace
          = (R2'.reverse ++ ['\n'])
            ++ ((t.takeWhile pyIsSpace).reverse.takeWhile (fun x => x != '\n')).reverse := by
        conv_lhs => rw [← List.reverse_reverse (t.takeWhile pyIsSpace), ← hPrev]
        rw [List.reverse_append, List.reverse_cons, List.append_assoc]
      have htrail : ('\n' :: t.takeWhile pyIsSpace).reverse.takeWhile
            (fun x => x != '\n')
          = (t.takeWhile pyIsSpace).reverse.takeWhile (fun x => x != '\n') := by
        rw [List.reverse_cons]
        conv_lhs => rw [← hPrev]
        rw [List.append_assoc, takeWhile_all_append _ _ _ hQall,
          List.cons_append, List.takeWhile_cons, if_neg (by decide),
          List.append_nil]
      have hPlen : (t.takeWhile pyIsSpace).length
          = (R2'.length + 1)
            + ((t.takeWhile pyIsSpace).reverse.takeWhile (fun x => x != '\n')).length := by
        conv_lhs => rw [hPdecomp]
        simp only [List.length_append, List.length_reverse, List.length_cons,
          List.length_nil]
      have hamt : ('\n' :: t.takeWhile pyIsSpace).length
          - ((t.takeWhile pyIsSpace).reverse.takeWhile (fun x => x != '\n')).length
          = R2'.length + 2 := by
        rw [List.length_cons, hPlen]
        omega
      have hr1 : ('\n' :: (t ++ '\n' :: [btChar, btChar, btChar]))
          = ('\n' :: (R2'.reverse ++ ['\n']))
            ++ (((((t.takeWhile pyIsSpace).reverse.takeWhile
                  (fun x => x != '\n')).reverse ++ c :: t2') ++ ['\n'])
              ++ btChar :: btChar :: btChar :: []) := by
        conv_lhs => rw [← hPt, hPdecomp]
        simp
      have hlen1 : ('\n' :: (R2'.reverse ++ ['\n'])).length = R2'.length + 2 := by
        simp
      have hwfree : hasTriple (((t.takeWhile pyIsSpace).reverse.takeWhile
          (fun x => x != '\n')).reverse ++ c :: t2') = false := by
        refine hasTriple_infix t (R2'.reverse ++ ['\n']) _ [] ht ?_
        rw [List.append_nil]
        conv_lhs => rw [← hPt, hPdecomp]
        rw [List.append_assoc]
      have hnb : hasTriple (((((t.takeWhile pyIsSpace).reverse.takeWhile
          (fun x => x != '\n')).reverse ++ c :: t2') ++ ['\n'])
            ++ [btChar, btChar]) = false := by
        rw [List.append_assoc]
        exact hasTriple_append_nl_bb _ hwfree
      have hff := findFence_boundary
        ((((t.takeWhile pyIsSpace).reverse.takeWhile
          (fun x => x != '\n')).reverse ++ c :: t2') ++ ['\n']) [] hnb
      refine ⟨(((t.takeWhile pyIsSpace).reverse.takeWhile
          (fun x => x != '\n')).reverse ++ c :: t2') ++ ['\n'], ?_, ?_⟩
      · unfold matchAfterFence
        rw [htw, if_pos (by simp), htrail, hamt, hr1, ← hlen1, List.drop_left,
          hff]
        rfl
      · rw [pyStripL_ws_right ['\n'] _
          (by intro a ha; rw [List.mem_singleton] at ha; subst ha; decide)]
        rw [pyStripL_ws_left _ _ hQspace]
        conv_rhs => rw [← hPt]
        rw [pyStripL_ws_left _ _ hPall]

/-- Extracting from a fenced form (language tag of word characters,
fence-free inner text) yields exactly the stripped inner text. -/
theorem cleanL_fence (lang t : List Char)
    (hl : ∀ c ∈ lang, pyIsWord c = true) (ht : hasTriple t = false) :
    cleanL (btChar :: btChar :: btChar
        :: (lang ++ '\n' :: (t ++ '\n' :: [btChar, btChar, btChar])))
      = pyStripL t := by
  obtain ⟨g, hg, hgs⟩ := matchAfterFence_fence t ht
  have hr1 : (lang ++ '\n' :: (t ++ '\n' :: [btChar, btChar, btChar])).dropWhile
      pyIsWord = '\n' :: (t ++ '\n' :: [btChar, btChar, btChar]) := by
    rw [dropWhile_all_append pyIsWord lang _ hl, List.dropWhile_cons,
      if_neg (by decide)]
  have hmatch : matchFenceAt (btChar :: btChar :: btChar
      :: (lang ++ '\n' :: (t ++ '\n' :: [btChar, btChar, btChar]))) = some g := by
    simp only [matchFenceAt]
    rw [if_pos (by decide), hr1, hg]
  unfold cleanL
  rw [searchFence]
  rw [hmatch]
  exact hgs

/-- The `.data` view of `fenceWrap`. -/
theorem fenceWrap_data (lang inner : String) :
    (fenceWrap lang inner).data
      = btChar :: btChar :: btChar
          :: (lang.data ++ '\n' :: (inner.data ++ '\n' :: [btChar, btChar, btChar])) := by
  rfl

/-- String-level form of `cleanL_fence`. -/
theorem cleanCodeOutput_fenceWrap (lang t : String)
    (hl : ∀ c ∈ lang.data, pyIsWord c = true) (ht : hasTriple t.data = false) :
    cleanCodeOutput (fenceWrap lang t) = pyStrip t := by
  unfold cleanCodeOutput pyStrip
  rw [fenceWrap_data, cleanL_fence lang.data t.data hl ht]

/-- C9 counterexample: for the inner text `" x"` (fence-free, but with
a leading space), extracting from the fenced form, re-fencing the
extracted text and extracting again yields `"x"`, not the original
inner text `" x"`: `.strip()` inside `_clean_code_output` loses the
surrounding whitespace. -/
theorem C9_counterexample :
    cleanCodeOutput (fenceWrap "python"
        (cleanCodeOutput (fenceWrap "python" " x"))) = "x"
  ∧ cleanCodeOutput (fenceWrap "python"
        (cleanCodeOutput (fenceWrap "python" " x"))) ≠ " x" := by
  constructor
  · decide
  · decide

/-- C9 amended: for every inner text without a triple-backtick fence
marker and every word-character language tag, extraction from the
fenced form yields the whitespace-stripped inner text, and re-fencing
the extracted text and extracting again reproduces it unchanged (so the
round trip is the identity exactly on texts with no leading or trailing
whitespace). -/
theorem C9_fence_roundtrip (lang t : String)
    (hl : ∀ c ∈ lang.data, pyIsWord c = true) (ht : hasTriple t.data = false) :
    cleanCodeOutput (fenceWrap lang t) = pyStrip t
  ∧ cleanCodeOutput (fenceWrap lang (cleanCodeOutput (fenceWrap lang t)))
      = cleanCodeOutput (fenceWrap lang t) := by
  have h1 := cleanCodeOutput_fenceWrap lang t hl ht
  have hst : (pyStrip t).data = pyStripL t.data := rfl
  have ht2 : hasTriple (pyStrip t).data = false := by
    rw [hst]
    obtain ⟨u, w, hdec, -, -⟩ := pyStripL_infix t.data
    exact hasTriple_infix t.data u (pyStripL t.data) w ht hdec
  have h2 := cleanCodeOutput_fenceWrap lang (pyStrip t) hl ht2
  refine ⟨h1, ?_⟩
  rw [h1, h2]
  show (⟨pyStripL (pyStripL t.data)⟩ : String) = pyStrip t
  rw [pyStripL_idem]
  rfl

/-- Witness for C9 at a concrete language tag and inner text. -/
theorem C9_witness :
    cleanCodeOutput (fenceWrap "python" "x = 1") = pyStrip "x = 1"
  ∧ cleanCodeOutput (fenceWrap "python"
        (cleanCodeOutput (fenceWrap "python" "x = 1")))
      = cleanCodeOutput (fenceWrap "python" "x = 1") :=
  C9_fence_roundtrip "python" "x = 1" (by decide) (by decide)

end Vibe
